import Mathlib

/-
Verification of the directory-listing middleware in
lib/core/show-dir/index.js of the http-server repository.

Modelling conventions:
- JavaScript strings are modelled as Lean strings at the code-point level.
- localeCompare is modelled as ascending code-point lexicographic
  comparison (a fixed, case-sensitive collation).
- The asynchronous callback pipeline is modelled as a pure function from a
  request, an options record and a filesystem snapshot to the list of
  response events it emits; a thrown exception inside the render step is
  modelled by the Bool component of the result being true and the event
  list stopping where the code stops.
- External collaborator modules that the middleware merely calls
  (he.encode, encodeURIComponent, etag, Date formatting, size-to-string,
  the styles icon table) are abstract function parameters collected in Ext.
- The filesystem is a snapshot keyed by resolved absolute paths.
-/

namespace ShowDir

/-! ### String helpers mirroring the JavaScript primitives used by the code -/

/-- Length of a string in characters, kept kernel-reducible. -/
def strLen (s : String) : Nat := s.data.length

/-- JavaScript slice-from-zero / substring-from-zero on strings. -/
def strTake (s : String) (n : Nat) : String := String.mk (s.data.take n)

/-- JavaScript endsWith on strings. -/
def strEndsWith (s suf : String) : Bool := List.isSuffixOf suf.data s.data

/-- JavaScript trim: drop whitespace from both ends. -/
def jsTrim (s : String) : String :=
  String.mk (((s.data.dropWhile Char.isWhitespace).reverse.dropWhile Char.isWhitespace).reverse)

/-- JavaScript repeat on strings. -/
def strRepeat (s : String) : Nat → String
  | 0 => ""
  | n + 1 => s ++ strRepeat s n

/-- Characters before the first dot; models split into segments at each dot
followed by taking the first segment. -/
def takeBeforeDotC : List Char → List Char
  | [] => []
  | c :: cs => if c = '.' then [] else c :: takeBeforeDotC cs

/-- First segment of a split at dots, as used on ISO timestamps. -/
def splitDotHead (s : String) : String := String.mk (takeBeforeDotC s.data)

/-- Replace the first occurrence of a pattern, on character lists. -/
def replFirstC (pat rep : List Char) : List Char → List Char
  | [] => if pat = [] then rep else []
  | c :: cs =>
      if List.isPrefixOf pat (c :: cs) then rep ++ (c :: cs).drop pat.length
      else c :: replFirstC pat rep cs

/-- JavaScript String.replace with a plain-string pattern: first occurrence only. -/
def replaceFirst (s pat rep : String) : String :=
  String.mk (replFirstC pat.data rep.data s.data)

/-- Segment after the last dot; models split at dots followed by pop. -/
def lastDotSegment (s : String) : String :=
  String.mk ((s.data.reverse.takeWhile (fun c => c != '.')).reverse)

/-- Models the regex replace that deletes one trailing slash if present. -/
def stripTrailingSlash (s : String) : String :=
  if strEndsWith s ("/") then strTake s (strLen s - 1) else s

/-! ### Path helpers mirroring node path on absolute paths -/

/-- Split a path at slashes, accumulator-based. -/
def splitSlashC : List Char → List Char → List String
  | [], acc => [String.mk acc.reverse]
  | c :: cs, acc =>
      if c = '/' then String.mk acc.reverse :: splitSlashC cs []
      else splitSlashC cs (c :: acc)

/-- Split a path string at slashes. -/
def splitSlash (s : String) : List String := splitSlashC s.data []

/-- Normalize path components: drop empty and dot components, let a dotdot
component cancel the preceding component (at the root it is dropped, as
node path resolution does). -/
def normComponents (cs : List String) : List String :=
  cs.foldl
    (fun acc c =>
      if c = ("") then acc
      else if c = (".") then acc
      else if c = ("..") then acc.dropLast
      else acc ++ [c])
    []

/-- Join components back into an absolute path string. -/
def joinComponents : List String → String
  | [] => ""
  | [c] => c
  | c :: rest => c ++ ("/") ++ joinComponents rest

/-- Render a component list as an absolute path. -/
def absOfComponents (cs : List String) : String := ("/") ++ joinComponents cs

/-- Models resolving dir/.. for an absolute directory path: the parent of
the directory (the root path stays the root). -/
def resolveParentPath (dir : String) : String :=
  absOfComponents (normComponents (splitSlash dir ++ [("..")]))

/-- Models joining a directory path with an entry name. -/
def joinPath (dir name : String) : String :=
  if strEndsWith dir ("/") then dir ++ name else dir ++ ("/") ++ name

/-! ### Code-point lexicographic comparison, the model of localeCompare -/

/-- Ascending code-point comparison of character lists, as a boolean
less-or-equal. -/
def lexLeC : List Char → List Char → Bool
  | [], _ => true
  | _ :: _, [] => false
  | a :: as, b :: bs =>
      if a.toNat < b.toNat then true
      else if b.toNat < a.toNat then false
      else lexLeC as bs

/-- The model of a.localeCompare(b) being nonpositive: code-point
lexicographic order on strings. -/
def strLe (s t : String) : Bool := lexLeC s.data t.data

theorem lexLeC_total (x y : List Char) : lexLeC x y = true ∨ lexLeC y x = true := by
  induction x generalizing y with
  | nil => exact Or.inl rfl
  | cons a as ih =>
    cases y with
    | nil => exact Or.inr rfl
    | cons b bs =>
      by_cases hab : a.toNat < b.toNat
      · left; simp [lexLeC, hab]
      · by_cases hba : b.toNat < a.toNat
        · right; simp [lexLeC, hba, hab]
        · rcases ih bs with h | h
          · left; simp [lexLeC, hab, hba, h]
          · right; simp [lexLeC, hab, hba, h]

theorem lexLeC_trans (x y z : List Char) (h1 : lexLeC x y = true)
    (h2 : lexLeC y z = true) : lexLeC x z = true := by
  induction x generalizing y z with
  | nil => rfl
  | cons a as ih =>
    cases y with
    | nil => simp [lexLeC] at h1
    | cons b bs =>
      cases z with
      | nil => simp [lexLeC] at h2
      | cons c cs =>
        simp only [lexLeC] at h1 h2 ⊢
        by_cases hab : a.toNat < b.toNat
        · by_cases hbc : b.toNat < c.toNat
          · simp [Nat.lt_trans hab hbc]
          · by_cases hcb : c.toNat < b.toNat
            · simp [hbc, hcb] at h2
            · have hbc2 : b.toNat = c.toNat := Nat.le_antisymm (Nat.le_of_not_lt hcb) (Nat.le_of_not_lt hbc)
              simp [hbc2 ▸ hab]
        · by_cases hba : b.toNat < a.toNat
          · simp [hab, hba] at h1
          · have hab2 : a.toNat = b.toNat := Nat.le_antisymm (Nat.le_of_not_lt hba) (Nat.le_of_not_lt hab)
            by_cases hbc : b.toNat < c.toNat
            · simp [hab2 ▸ hbc]
            · by_cases hcb : c.toNat < b.toNat
              · simp [hbc, hcb] at h2
              · have hbc2 : b.toNat = c.toNat := Nat.le_antisymm (Nat.le_of_not_lt hcb) (Nat.le_of_not_lt hbc)
                simp only [hab2, hbc2, Nat.lt_irrefl, if_false]
                simp only [hab2, hbc2, Nat.lt_irrefl, if_false] at h1 h2
                exact ih bs cs h1 h2

/-! ### Data model -/

/-- File metadata as the middleware consumes it: the directory flag from
stat, and the modification time as the ISO-8601 string its Date conversion
would produce (none when the conversion would throw, such as an
unavailable or unparsable timestamp). -/
structure Stat where
  isDir : Bool
  mtimeISO : Option String
deriving DecidableEq

/-- A directory entry as a name-stat pair; the stat is none for entries
whose per-entry stat failed (the unknowns), mirroring the null stored by
the classifier. -/
abbrev Entry := String × Option Stat

/-- The middleware options, as destructured at the top of the module. -/
structure Opts where
  cache : String
  root : String
  baseDir : String
  humanReadable : Bool
  hidePermissions : Bool
  handleError : Bool
  showDotfiles : Bool
  si : Bool
  weakEtags : Bool

/-- External collaborator functions the middleware calls but does not
define: HTML escaping, URL-component encoding, the etag module, Date
to-UTC-string formatting, the size formatter module, the styles icon
table, and the inline CSS text. -/
structure Ext where
  heEncode : String → String
  encodeURIComponent : String → String
  etagFn : Stat → Bool → String
  toUTCString : Option String → String
  sizeToString : Option Stat → Bool → Bool → String
  supportedIcons : String → Bool
  css : String

/-- Filesystem snapshot keyed by resolved absolute paths; none models the
operation failing (stat error, readdir error, readFileSync throwing). -/
structure FS where
  stat : String → Option Stat
  readdir : String → Option (List String)
  readFile : String → Option String

/-- The request as the middleware reads it: the parsed url pathname, the
parsed query string, and the host header (none when the headers map has
no host field). -/
structure Req where
  pathname : String
  search : Option String
  host : Option String

/-- Observable response events, in emission order: header sets, the head
write, the body end, a call into the 500 status handler, a call to next. -/
inductive Ev where
  | setHeader (k v : String)
  | writeHead (code : Nat)
  | endBody (body : String)
  | error500
  | next
deriving DecidableEq

/-- The values writeRow computes for one entry before appending its table
row: the (possibly suffix-stripped) raw name, the directory flag, the
last-modified cell, the href, the external flag, the escaped display
name, the icon class and the size cell. -/
structure RowData where
  name : String
  isDir : Bool
  lastModified : String
  href : String
  external : Bool
  displayName : String
  iconClass : String
  filesize : String
deriving DecidableEq

/-! ### The pipeline steps, translated from lib/core/show-dir/index.js -/

/-- Lines 66 to 69: optionally exclude dotfiles from the listing. -/
def listedNames (showDotfiles : Bool) (files : List String) : List String :=
  if showDotfiles then files
  else files.filter (fun filename => strTake filename 1 != ("."))

/-- Modelled from the spec: lib/core/show-dir/sort-files.js is not under
src/. Per section 4.3, each name is statted under the directory; on a
directory result it is appended to dirs, on another result to files, and
on a stat failure the pair of the name and null is appended to unknowns;
the callback receives the triple unknowns, dirs, files. -/
def sortFilesModel (statFn : String → Option Stat) (dir : String) :
    List String → List Entry × List Entry × List Entry
  | [] => ([], [], [])
  | n :: rest =>
    let b := sortFilesModel statFn dir rest
    match statFn (joinPath dir n) with
    | none => ((n, none) :: b.1, b.2.1, b.2.2)
    | some s =>
        if s.isDir then (b.1, (n, some s) :: b.2.1, b.2.2)
        else (b.1, b.2.1, (n, some s) :: b.2.2)

/-- Line 189: the guard for adding a parent link, comparing the first
root-length characters of the resolved parent path with the root. -/
def parentCheckPasses (root dir : String) : Bool :=
  strTake (resolveParentPath dir) (strLen root) == root

/-- Result of the parent-injection step: either the request error outcome,
or the dirs bucket handed on to render. -/
inductive ParentOutcome where
  | errorOut
  | proceed (dirs2 : List Entry)
deriving DecidableEq

/-- Lines 188 to 204: when the parent check passes, stat the parent and
prepend the synthetic dotdot entry; a failing parent stat is the request
error outcome; otherwise render with the buckets unchanged. -/
def parentStep (root dir : String) (statFn : String → Option Stat)
    (dirs : List Entry) : ParentOutcome :=
  if parentCheckPasses root dir then
    match statFn (resolveParentPath dir) with
    | none => ParentOutcome.errorOut
    | some s => ParentOutcome.proceed (("..", some s) :: dirs)
  else ParentOutcome.proceed dirs

/-- Lines 100 to 110: the last-modified cell; the caught conversion throw
yields the fixed non-breaking-space placeholder, otherwise the text
before the first dot of the ISO string with its first T replaced by a
space. -/
def convertDateTime (mt : Option String) : String :=
  match mt with
  | none =>
    let nbsps := strRepeat ("&nbsp;") 9
    nbsps ++ ("-") ++ nbsps
  | some s => replaceFirst (splitDotHead s) ("T") (" ")

/-- String conversion of an entry as the files-bucket sort comparator sees
it: array join at a comma, with a stat object rendering as the default
object string and a null stat rendering as the empty string. -/
def entryToString (e : Entry) : String :=
  e.1 ++ (",") ++ (match e.2 with
    | some _ => "[object Object]"
    | none => "")

/-- Comparator of lines 150 and 152: ascending localeCompare on the entry
names (model: code-point order). -/
def entryNameLe (a b : Entry) : Prop := strLe a.1 b.1 = true

/-- Comparator of line 151: ascending localeCompare on the string
conversion of the whole name-stat tuple, not on the name. -/
def entryTupleLe (a b : Entry) : Prop := strLe (entryToString a) (entryToString b) = true

instance entryNameLeDec : DecidableRel entryNameLe := fun a b =>
  inferInstanceAs (Decidable (strLe a.1 b.1 = true))

instance entryTupleLeDec : DecidableRel entryTupleLe := fun a b =>
  inferInstanceAs (Decidable (strLe (entryToString a) (entryToString b) = true))

instance entryNameLeTotal : IsTotal Entry entryNameLe :=
  ⟨fun a b => lexLeC_total a.1.data b.1.data⟩

instance entryNameLeTrans : IsTrans Entry entryNameLe :=
  ⟨fun a b c h1 h2 => lexLeC_trans a.1.data b.1.data c.1.data h1 h2⟩

instance entryTupleLeTotal : IsTotal Entry entryTupleLe :=
  ⟨fun a b => lexLeC_total (entryToString a).data (entryToString b).data⟩

instance entryTupleLeTrans : IsTrans Entry entryTupleLe :=
  ⟨fun a b c h1 h2 =>
    lexLeC_trans (entryToString a).data (entryToString b).data (entryToString c).data h1 h2⟩

/-- Lines 150 to 152: the order in which rows are written: the dirs bucket
sorted by name, then the files bucket sorted by the tuple string, then
the unknowns bucket sorted by name. A stable insertion sort models the
stable comparator sort of the runtime. -/
def renderOrder (dirs files lolwuts : List Entry) : List Entry :=
  List.insertionSort entryNameLe dirs
    ++ List.insertionSort entryTupleLe files
    ++ List.insertionSort entryNameLe lolwuts

/-- Lines 111 to 148: the values computed for one row. Returns none when
the synchronous shortcut-content read throws. A null stat (an unknowns
entry) has no directory flag, no usable time, and takes the size
formatter fallback, per the classifier contract of spec section 4.3. -/
def writeRowData (ext : Ext) (humanReadable si : Bool) (fsys : FS)
    (pathname : String) (search : Option String) (parent : String)
    (file : Entry) : Option RowData :=
  let isDir := match file.2 with
    | some s => s.isDir
    | none => false
  let lastModified := convertDateTime (file.2.bind Stat.mtimeISO)
  let href0 := stripTrailingSlash pathname ++ ("/") ++ ext.encodeURIComponent file.1
  let href1 := if isDir then href0 ++ ("/") ++ ext.heEncode (search.getD ("")) else href0
  let step : Option (String × String × Bool) :=
    if !isDir && strEndsWith file.1 (".url") then
      match fsys.readFile (joinPath parent file.1) with
      | none => none
      | some content => some (jsTrim content, strTake file.1 (strLen file.1 - 4), true)
    else some (href1, file.1, false)
  match step with
  | none => none
  | some (href2, name2, external) =>
    let displayName := ext.heEncode name2 ++ (if isDir then "/" else "")
    let extSeg := lastDotSegment name2
    let classForNonDir := if ext.supportedIcons extSeg then extSeg else ("_page")
    let iconClass := ("icon-") ++ (if isDir then "folder" else classForNonDir)
    let filesize :=
      replaceFirst (if external then "-" else ext.sizeToString file.2 humanReadable si)
        ("??k") ("0B")
    some ⟨name2, isDir, lastModified, href2, external, displayName, iconClass, filesize⟩

/-- Lines 136 to 147: the HTML of one table row. -/
def rowHtml (r : RowData) : String :=
  ("<tr>") ++ ("<td><i class=\"icon ") ++ r.iconClass ++ ("\"></i></td>")
    ++ (if r.external then
          ("<td class=\"display-name external\"><a href=\"") ++ r.href
            ++ ("\" target=\"_blank\">") ++ r.displayName ++ ("</a></td>")
        else
          ("<td class=\"display-name\"><a href=\"") ++ r.href ++ ("\">")
            ++ r.displayName ++ ("</a></td>"))
    ++ ("<td class=\"modified\"><code>") ++ r.lastModified ++ ("</code></td>")
    ++ ("<td class=\"filesize\"><code>") ++ r.filesize ++ ("</code></td>")
    ++ ("</tr>\n")

/-- Join lines with newlines, as the array join of the page header does. -/
def joinLines : List String → String
  | [] => ""
  | [l] => l
  | l :: rest => l ++ ("\n") ++ joinLines rest

/-- Lines 79 to 96: the fixed page shell above the table. -/
def pageHeader (ext : Ext) (pathname : String) : String :=
  joinLines
    [ ("<!DOCTYPE html>")
    , ("<html lang=\"en\">")
    , ("  <head>")
    , ("    <meta charset=\"utf-8\">")
    , ("    <meta name=\"robots\" content=\"noindex, nofollow\">")
    , ("    <meta name=\"viewport\" content=\"width=device-width\">")
    , ("    <link rel=\"stylesheet\" href=\"/.theme/css/bootstrap.css\">")
    , ("    <link rel=\"stylesheet\" href=\"/.theme/css/main.css\">")
    , ("    <title>Index of ") ++ ext.heEncode pathname ++ ("</title>")
    , ("    <style type=\"text/css\">") ++ ext.css ++ ("</style>")
    , ("  </head>")
    , ("  <body>")
    , ("<div class=\"container\">")
    , ("<h1>Index of ") ++ ext.heEncode pathname ++ ("</h1><hr>")
    ] ++ ("\n")

/-- Lines 160 to 171: the footer, branded by the host suffix check. The
host is known present here; the check on line 160 has already been
passed. -/
def footerHtml (ext : Ext) (host : String) : String :=
  if strEndsWith host ("you.rocks") then
    ("<br><address> Server deployed with <span class=\"eceheart\">&hearts;</span> for YOU\x2721 at ")
      ++ ext.heEncode host ++ ("</address>\n") ++ ("</body></html>\n")
  else
    ("<br><address>Node.js server running @ ") ++ ext.heEncode host
      ++ ("</address>\n") ++ ("</body></html>\n")

/-- The full page body of a successful render. -/
def pageHtml (ext : Ext) (pathname : String) (rows : List RowData) (host : String) : String :=
  pageHeader ext pathname ++ ("<table>") ++ String.join (rows.map rowHtml)
    ++ ("</table>\n") ++ ("</div>\n") ++ footerHtml ext host

/-- Monadic map over Option that stops at the first failing element,
modelling the forEach over rows aborting at the first thrown row. -/
def mapMo (f : α → Option β) : List α → Option (List β)
  | [] => some []
  | a :: as =>
    match f a with
    | none => none
    | some b =>
      match mapMo f as with
      | none => none
      | some bs => some (b :: bs)

/-- Lines 76 to 177: the render step. Returns none when it throws: either
a row write threw on its shortcut-content read, or line 160 dereferenced
an absent host header. Otherwise the single head write and body end. -/
def renderEvents (opts : Opts) (ext : Ext) (fsys : FS) (req : Req) (dir : String)
    (dirs2 files lolwuts : List Entry) : Option (List Ev) :=
  match mapMo (writeRowData ext opts.humanReadable opts.si fsys req.pathname req.search dir)
      (renderOrder dirs2 files lolwuts) with
  | none => none
  | some rows =>
    match req.host with
    | none => none
    | some h => some [Ev.writeHead 200, Ev.endBody (pageHtml ext req.pathname rows h)]

/-- Lines 44 to 50 and 57 to 63: the single error outcome, a 500 status
handler call in propagate mode, a next call in swallow mode. -/
def errEvent (opts : Opts) : Ev :=
  if opts.handleError then Ev.error500 else Ev.next

/-- Lines 66 to 205: the continuation after stat and readdir succeeded:
dotfile filtering, the four header sets, classification, the parent step,
then render. The Bool result records whether the request threw. -/
def afterRead (opts : Opts) (ext : Ext) (fsys : FS) (req : Req) (dir : String)
    (st : Stat) (raw : List String) : List Ev × Bool :=
  let names := listedNames opts.showDotfiles raw
  let hdrs := [ Ev.setHeader ("content-type") ("text/html")
              , Ev.setHeader ("etag") (ext.etagFn st opts.weakEtags)
              , Ev.setHeader ("last-modified") (ext.toUTCString st.mtimeISO)
              , Ev.setHeader ("cache-control") opts.cache ]
  let b := sortFilesModel fsys.stat dir names
  match parentStep opts.root dir fsys.stat b.2.1 with
  | ParentOutcome.errorOut => (hdrs ++ [errEvent opts], false)
  | ParentOutcome.proceed dirs2 =>
    match renderEvents opts ext fsys req dir dirs2 b.2.2 b.1 with
    | none => (hdrs, true)
    | some evs => (hdrs ++ evs, false)

/-- Lines 43 to 207: the whole request, from the stat of the resolved
target directory onward. The dir argument is the resolved target path
computed on lines 31 to 41. -/
def run (opts : Opts) (ext : Ext) (fsys : FS) (req : Req) (dir : String) :
    List Ev × Bool :=
  match fsys.stat dir with
  | none => ([errEvent opts], false)
  | some st =>
    match fsys.readdir dir with
    | none => ([errEvent opts], false)
    | some raw => afterRead opts ext fsys req dir st raw

/-- The events that commit the request to an outcome: a head write, a body
end, a status handler call, or a next call. -/
def isOutcome : Ev → Bool
  | Ev.setHeader _ _ => false
  | Ev.writeHead _ => true
  | Ev.endBody _ => true
  | Ev.error500 => true
  | Ev.next => true

/-- The outcome events of a trace, in order. -/
def outcomes (t : List Ev) : List Ev := t.filter isOutcome

/-! ### Concrete sample inputs used by the witnesses -/

/-- Sample collaborators: identity escaping, constant etag and date
strings, a constant size string, and an icon table containing png. -/
def sampleExt : Ext :=
  { heEncode := fun s => s
  , encodeURIComponent := fun s => s
  , etagFn := fun _ _ => ("E1")
  , toUTCString := fun _ => ("UTC")
  , sizeToString := fun _ _ _ => ("4")
  , supportedIcons := fun s => s == ("png")
  , css := ("") }

/-- A directory stat sample. -/
def stDirS : Stat := ⟨true, some ("2024-01-02T03:04:05.000Z")⟩

/-- A regular-file stat sample. -/
def stFileS : Stat := ⟨false, some ("2024-01-02T03:04:05.000Z")⟩

/-- Options with error swallowing (next on failure). -/
def optsSwallow : Opts :=
  { cache := ("max-age=3600"), root := ("/srv"), baseDir := ("/")
  , humanReadable := true, hidePermissions := false, handleError := false
  , showDotfiles := false, si := false, weakEtags := true }

/-- Options with error propagation (500 handler on failure). -/
def optsPropagate : Opts :=
  { cache := ("max-age=3600"), root := ("/srv"), baseDir := ("/")
  , humanReadable := true, hidePermissions := false, handleError := true
  , showDotfiles := false, si := false, weakEtags := true }

/-- Options rooted at the target itself, so no parent link is attempted. -/
def optsRootA : Opts :=
  { cache := ("max-age=3600"), root := ("/srv/a"), baseDir := ("/")
  , humanReadable := true, hidePermissions := false, handleError := false
  , showDotfiles := false, si := false, weakEtags := true }

/-- A request without a host header. -/
def reqNoHostS : Req := ⟨("/a/"), none, none⟩

/-- A request with a host header. -/
def reqHostS : Req := ⟨("/a/"), none, some ("example.com")⟩

/-- A healthy snapshot of /srv/a with one plain file. -/
def fsListing : FS :=
  { stat := fun p =>
      if p == ("/srv/a") then some stDirS
      else if p == ("/srv") then some stDirS
      else if p == ("/srv/a/a.txt") then some stFileS
      else none
  , readdir := fun p => if p == ("/srv/a") then some [("a.txt")] else none
  , readFile := fun _ => none }

/-- A snapshot where the parent directory stat fails. -/
def fsParentFail : FS :=
  { stat := fun p =>
      if p == ("/srv/a") then some stDirS
      else if p == ("/srv/a/a.txt") then some stFileS
      else none
  , readdir := fun p => if p == ("/srv/a") then some [("a.txt")] else none
  , readFile := fun _ => none }

/-- A snapshot where every filesystem operation fails. -/
def fsAllFail : FS :=
  { stat := fun _ => none, readdir := fun _ => none, readFile := fun _ => none }

/-- A snapshot holding a shortcut file with a readable target url. -/
def fsShortcut : FS :=
  { stat := fun p =>
      if p == ("/srv/a") then some stDirS
      else if p == ("/srv") then some stDirS
      else if p == ("/srv/a/link.url") then some stFileS
      else none
  , readdir := fun p => if p == ("/srv/a") then some [("link.url")] else none
  , readFile := fun p =>
      if p == ("/srv/a/link.url") then some ("https://example.com\n") else none }

/-- A snapshot holding a shortcut file whose content read fails. -/
def fsBadShortcut : FS :=
  { stat := fun p =>
      if p == ("/srv/a") then some stDirS
      else if p == ("/srv/a/bad.url") then some stFileS
      else none
  , readdir := fun p => if p == ("/srv/a") then some [("bad.url")] else none
  , readFile := fun _ => none }

/-! ### Helper lemmas -/

theorem mapMo_eq_none {α β : Type} (f : α → Option β) (l : List α) (a : α)
    (ha : a ∈ l) (hf : f a = none) : mapMo f l = none := by
  induction l with
  | nil => cases ha
  | cons b bs ih =>
    unfold mapMo
    cases hfb : f b with
    | none => rfl
    | some v =>
      rcases List.mem_cons.mp ha with hab | hmem
      · rw [hab] at hf; rw [hf] at hfb; cases hfb
      · rw [ih hmem]

theorem takeBeforeDotC_no_dot_append (xs ys : List Char) (h : ('.') ∉ xs) :
    takeBeforeDotC (xs ++ ys) = xs ++ takeBeforeDotC ys := by
  induction xs with
  | nil => simp
  | cons c cs ih =>
    have hc : c ≠ ('.') := fun he => h (he ▸ List.mem_cons_self c cs)
    have hcs : ('.') ∉ cs := fun hm => h (List.mem_cons_of_mem c hm)
    simp only [List.cons_append, takeBeforeDotC, if_neg hc, List.append_eq]
    rw [ih hcs]

theorem replFirstC_marker (xs ys : List Char) (h : ('T') ∉ xs) :
    replFirstC [('T')] [(' ')] (xs ++ ('T') :: ys) = xs ++ (' ') :: ys := by
  induction xs with
  | nil => simp [replFirstC, List.isPrefixOf]
  | cons c cs ih =>
    have hc : c ≠ ('T') := fun he => h (he ▸ List.mem_cons_self c cs)
    have hcs : ('T') ∉ cs := fun hm => h (List.mem_cons_of_mem c hm)
    have hpre : List.isPrefixOf [('T')] (c :: (cs ++ ('T') :: ys)) = false := by
      simp [List.isPrefixOf, beq_iff_eq]
      exact fun he => hc he.symm
    simp only [List.cons_append, replFirstC, List.append_eq, hpre, Bool.false_eq_true, if_false]
    rw [ih hcs]

theorem dot_mem_of_url_suffix (name : String) (h : strEndsWith name (".url") = true) :
    ('.') ∈ name.data := by
  have h2 : (".url").data <:+ name.data := List.isSuffixOf_iff_suffix.mp h
  obtain ⟨t, ht⟩ := h2
  rw [← ht]
  simp [show (".url").data = [('.'), ('u'), ('r'), ('l')] from rfl]

theorem lastDotSegment_no_dot (name : String) (h : ('.') ∉ name.data) :
    lastDotSegment name = name := by
  unfold lastDotSegment
  have ht : name.data.reverse.takeWhile (fun c => c != ('.')) = name.data.reverse := by
    rw [List.takeWhile_eq_self_iff]
    intro x hx
    have hm : x ∈ name.data := List.mem_reverse.mp hx
    rw [bne_iff_ne]
    exact fun he => h (he ▸ hm)
  rw [ht, List.reverse_reverse]

theorem strTake_one_ne_dot (n : String) :
    ((strTake n 1 != (".")) = true) ↔ n.data.head? ≠ some ('.') := by
  unfold strTake
  rw [bne_iff_ne]
  cases hd : n.data with
  | nil => simp [String.ext_iff]
  | cons c cs => simp [String.ext_iff, show ((".") : String).data = [('.')] from rfl]

theorem renderEvents_host_none (opts : Opts) (ext : Ext) (fsys : FS) (req : Req)
    (dir : String) (d2 f l : List Entry) (hh : req.host = none) :
    renderEvents opts ext fsys req dir d2 f l = none := by
  unfold renderEvents
  cases hm : mapMo (writeRowData ext opts.humanReadable opts.si fsys req.pathname req.search dir)
      (renderOrder d2 f l) with
  | none => rfl
  | some rows => rw [hh]

theorem outcomes_headers (k1 v1 k2 v2 k3 v3 k4 v4 : String) (rest : List Ev) :
    outcomes ([Ev.setHeader k1 v1, Ev.setHeader k2 v2, Ev.setHeader k3 v3,
      Ev.setHeader k4 v4] ++ rest) = outcomes rest := by
  simp [outcomes, isOutcome]

/-! ### Claim theorems -/

/-- C1: the spec invariant demands exactly one outcome per request, but a
request whose headers carry no host field reaches the render step, which
dereferences the absent host and throws before the head write: the
request produces no response and no error or next call, so the invariant
fails on the code at this input. -/
theorem missing_host_produces_no_outcome :
    reqNoHostS.host = none
    ∧ fsListing.stat ("/srv/a") = some stDirS
    ∧ fsListing.readdir ("/srv/a") = some [("a.txt")]
    ∧ (run optsSwallow sampleExt fsListing reqNoHostS ("/srv/a")).2 = true
    ∧ outcomes (run optsSwallow sampleExt fsListing reqNoHostS ("/srv/a")).1 = [] := by
  decide

/-- C2: for every listing that proceeds to render, the dirs bucket handed
to render contains a dotdot entry exactly when the resolved parent path
passes the root check; when it does, the entry carries the stat of the
resolved parent path and is prepended to the bucket. -/
theorem parent_entry_iff_within_root (root dir : String)
    (statFn : String → Option Stat) (dirs ds : List Entry)
    (hrun : parentStep root dir statFn dirs = ParentOutcome.proceed ds)
    (hno : ∀ s, (("..", s) : Entry) ∉ dirs) :
    ((∃ s, (("..", s) : Entry) ∈ ds) ↔ parentCheckPasses root dir = true)
    ∧ (parentCheckPasses root dir = true →
        ∃ st, statFn (resolveParentPath dir) = some st
          ∧ ds = ("..", some st) :: dirs) := by
  unfold parentStep at hrun
  by_cases hc : parentCheckPasses root dir = true
  · rw [if_pos hc] at hrun
    cases hs : statFn (resolveParentPath dir) with
    | none => rw [hs] at hrun; cases hrun
    | some st =>
      rw [hs] at hrun
      have hds : ds = ("..", some st) :: dirs := by
        cases hrun; rfl
      constructor
      · constructor
        · intro _; exact hc
        · intro _; exact ⟨some st, hds ▸ List.mem_cons_self _ _⟩
      · intro _; exact ⟨st, rfl, hds⟩
  · rw [if_neg hc] at hrun
    have hds : ds = dirs := by cases hrun; rfl
    constructor
    · constructor
      · intro ⟨s, hsmem⟩
        exact absurd (hds ▸ hsmem) (hno s)
      · intro hcc; exact absurd hcc hc
    · intro hcc; exact absurd hcc hc

/-- Witness for C2 at the inputs named by the spec: with root /srv and
target /srv/a a dotdot entry for /srv is present, and with root /srv and
target /srv itself no dotdot entry is present. -/
theorem parent_entry_iff_within_root_witness :
    (∃ s, (("..", s) : Entry) ∈ [(("..", some stDirS) : Entry)])
    ∧ ¬ (∃ s, (("..", s) : Entry) ∈ ([] : List Entry)) := by
  constructor
  · exact (parent_entry_iff_within_root ("/srv") ("/srv/a") fsListing.stat [] _
      (by decide) (by intro s hs; cases hs)).1.mpr (by decide)
  · intro hex
    have hiff := (parent_entry_iff_within_root ("/srv") ("/srv") fsListing.stat [] []
      (by decide) (by intro s hs; cases hs)).1
    have hfalse := hiff.mp hex
    exact absurd hfalse (by decide)

/-- C3 amended: rows are emitted as the dirs block, then the files block,
then the unknowns block; the dirs and unknowns blocks are each sorted
ascending by the name comparison, but the files block is sorted ascending
by the comparison applied to the string form of the whole name-stat
tuple, which can deviate from name order. -/
theorem render_row_order_blocks (dirs files lolwuts : List Entry) :
    ∃ d f u, renderOrder dirs files lolwuts = d ++ f ++ u
      ∧ List.Perm d dirs ∧ List.Sorted entryNameLe d
      ∧ List.Perm f files ∧ List.Sorted entryTupleLe f
      ∧ List.Perm u lolwuts ∧ List.Sorted entryNameLe u :=
  ⟨_, _, _, rfl,
    List.perm_insertionSort _ _, List.sorted_insertionSort _ _,
    List.perm_insertionSort _ _, List.sorted_insertionSort _ _,
    List.perm_insertionSort _ _, List.sorted_insertionSort _ _⟩

/-- C3 counterexample: the files bucket with entries named a and a! is
emitted in the order a!, a, which is not ascending in the name
comparison: the comparator of line 151 stringifies the whole tuple, so
the comma of the array join outweighs the bang. -/
theorem files_bucket_not_sorted_by_name :
    (renderOrder [] [(("a"), some stFileS), (("a!"), some stFileS)] []).map Prod.fst
        = [("a!"), ("a")]
    ∧ ¬ List.Sorted entryNameLe
        (renderOrder [] [(("a"), some stFileS), (("a!"), some stFileS)] []) := by
  decide

/-- C4: when the target stat, the directory read, or the parent stat
fails, the trace contains no head write and no body end: its only outcome
event is a single 500 handler call in propagate mode or a single next
call in swallow mode, nothing follows it, and nothing is thrown. -/
theorem fatal_error_one_outcome (opts : Opts) (ext : Ext) (fsys : FS) (req : Req)
    (dir : String)
    (h : fsys.stat dir = none
      ∨ (∃ st, fsys.stat dir = some st ∧ fsys.readdir dir = none)
      ∨ (∃ st raw, fsys.stat dir = some st ∧ fsys.readdir dir = some raw
          ∧ parentCheckPasses opts.root dir = true
          ∧ fsys.stat (resolveParentPath dir) = none)) :
    outcomes (run opts ext fsys req dir).1
        = [if opts.handleError then Ev.error500 else Ev.next]
    ∧ (run opts ext fsys req dir).2 = false := by
  rcases h with h1 | ⟨st, h1, h2⟩ | ⟨st, raw, h1, h2, hc, hp⟩
  · cases hhe : opts.handleError <;>
      simp [run, h1, outcomes, errEvent, isOutcome, hhe]
  · cases hhe : opts.handleError <;>
      simp [run, h1, h2, outcomes, errEvent, isOutcome, hhe]
  · have hps : parentStep opts.root dir fsys.stat
        (sortFilesModel fsys.stat dir (listedNames opts.showDotfiles raw)).2.1
        = ParentOutcome.errorOut := by
      unfold parentStep; rw [if_pos hc, hp]
    cases hhe : opts.handleError <;>
      simp [run, h1, h2, afterRead, hps, outcomes, errEvent, isOutcome, hhe]

/-- Witness for C4: a target stat failure in propagate mode yields the
single 500 handler call. -/
theorem fatal_error_one_outcome_witness :
    fsAllFail.stat ("/srv/a") = none
    ∧ outcomes (run optsPropagate sampleExt fsAllFail reqHostS ("/srv/a")).1
        = [if optsPropagate.handleError then Ev.error500 else Ev.next]
    ∧ (run optsPropagate sampleExt fsAllFail reqHostS ("/srv/a")).2 = false := by
  have h := fatal_error_one_outcome optsPropagate sampleExt fsAllFail reqHostS ("/srv/a")
    (Or.inl rfl)
  exact ⟨rfl, h.1, h.2⟩

/-- C5: a non-directory entry whose name ends in the shortcut suffix and
whose content read succeeds renders with the trimmed file content as
href, the name with the four-character suffix stripped (and escaped) as
display name, the external mark set, and the placeholder dash as size. -/
theorem shortcut_link_row (ext : Ext) (hr si : Bool) (fsys : FS)
    (pathname : String) (search : Option String) (parent name content : String)
    (st : Stat)
    (hnd : st.isDir = false)
    (hurl : strEndsWith name (".url") = true)
    (hread : fsys.readFile (joinPath parent name) = some content) :
    ∃ r, writeRowData ext hr si fsys pathname search parent (name, some st) = some r
      ∧ r.href = jsTrim content
      ∧ r.name = strTake name (strLen name - 4)
      ∧ r.displayName = ext.heEncode (strTake name (strLen name - 4))
      ∧ r.external = true
      ∧ r.filesize = ("-") := by
  simp only [writeRowData, hnd, hurl, Bool.not_false, Bool.true_and, if_pos, hread]
  exact ⟨_, rfl, rfl, rfl, by simp [String.append_empty], rfl,
    (by decide : replaceFirst ("-") ("??k") ("0B") = ("-"))⟩

/-- Witness for C5 at the inputs named by the spec: a file link.url whose
content is the example url followed by a newline renders href
https://example.com, display name link, the external mark and a dash. -/
theorem shortcut_link_row_witness :
    strEndsWith ("link.url") (".url") = true
    ∧ ∃ r, writeRowData sampleExt false false fsShortcut ("/a/") none ("/srv/a")
          (("link.url"), some stFileS) = some r
        ∧ r.href = ("https://example.com")
        ∧ r.name = ("link")
        ∧ r.displayName = ("link")
        ∧ r.external = true
        ∧ r.filesize = ("-") := by
  refine ⟨by decide, ?_⟩
  obtain ⟨r, h0, h1, h2, h3, h4, h5⟩ := shortcut_link_row sampleExt false false fsShortcut
    ("/a/") none ("/srv/a") ("link.url") ("https://example.com\n") stFileS
    rfl (by decide) (by decide)
  exact ⟨r, h0, h1.trans (by decide), h2.trans (by decide), h3.trans (by decide), h4,
    h5⟩

/-- C6: a name appears in the listing handed to classification exactly
when it was read from the directory and either the show-dotfiles option
is on or the name does not start with a dot. -/
theorem dotfile_filter_iff (sd : Bool) (files : List String) (n : String) :
    n ∈ listedNames sd files
      ↔ (n ∈ files ∧ (sd = true ∨ n.data.head? ≠ some ('.'))) := by
  cases sd with
  | true => simp [listedNames]
  | false =>
    simp only [listedNames, Bool.false_eq_true, if_false, List.mem_filter]
    constructor
    · intro ⟨hm, hp⟩
      exact ⟨hm, Or.inr ((strTake_one_ne_dot n).mp hp)⟩
    · intro ⟨hm, hor⟩
      rcases hor with hF | hh
      · cases hF
      · exact ⟨hm, (strTake_one_ne_dot n).mpr hh⟩

/-- C7: the last-modified cell strips everything from the first dot of the
ISO timestamp onward (the sub-second fraction and the timezone
designator) and replaces the T separator by a space; an unavailable or
unparsable timestamp renders the fixed placeholder of nine non-breaking
spaces, a dash, and nine non-breaking spaces. -/
theorem last_modified_format (d t r : String)
    (hd1 : ('.') ∉ d.data) (hd2 : ('T') ∉ d.data) (ht1 : ('.') ∉ t.data) :
    convertDateTime (some (d ++ ("T") ++ t ++ (".") ++ r)) = d ++ (" ") ++ t
    ∧ convertDateTime none
        = strRepeat ("&nbsp;") 9 ++ ("-") ++ strRepeat ("&nbsp;") 9 := by
  constructor
  · have hmain : convertDateTime (some (d ++ ("T") ++ t ++ (".") ++ r))
        = String.mk (replFirstC [('T')] [(' ')]
            (takeBeforeDotC (d ++ ("T") ++ t ++ (".") ++ r).data)) := rfl
    have hsdata : (d ++ ("T") ++ t ++ (".") ++ r).data
        = d.data ++ (('T') :: (t.data ++ ('.') :: r.data)) := by
      simp [String.data_append, show (("T") : String).data = [('T')] from rfl,
        show ((".") : String).data = [('.')] from rfl]
    have h1 : takeBeforeDotC (d.data ++ (('T') :: (t.data ++ ('.') :: r.data)))
        = d.data ++ ('T') :: t.data := by
      rw [takeBeforeDotC_no_dot_append _ _ hd1]
      simp only [takeBeforeDotC, if_neg (show ('T') ≠ ('.') by decide)]
      rw [takeBeforeDotC_no_dot_append _ _ ht1]
      simp [takeBeforeDotC]
    rw [hmain, hsdata, h1, replFirstC_marker d.data t.data hd2]
    apply String.ext
    show d.data ++ (' ') :: t.data = (d ++ (" ") ++ t).data
    simp [String.data_append, show ((" ") : String).data = [(' ')] from rfl]
  · rfl

/-- Witness for C7 at a concrete ISO timestamp and at the unavailable
case. -/
theorem last_modified_format_witness :
    convertDateTime (some (("2024-01-02") ++ ("T") ++ ("03:04:05") ++ (".") ++ ("000Z")))
        = ("2024-01-02") ++ (" ") ++ ("03:04:05")
    ∧ convertDateTime none
        = strRepeat ("&nbsp;") 9 ++ ("-") ++ strRepeat ("&nbsp;") 9 :=
  last_modified_format ("2024-01-02") ("03:04:05") ("000Z")
    (by decide) (by decide) (by decide)

/-- C8 amended: a request without a host header whose target stat,
directory read and classification succeed, and whose parent stat (when
the parent lies within the root) also succeeds, reaches render, which
throws before the head write: the request throws and produces no outcome
event at all. -/
theorem missing_host_render_throws (opts : Opts) (ext : Ext) (fsys : FS) (req : Req)
    (dir : String) (st : Stat) (raw : List String)
    (hhost : req.host = none)
    (hst : fsys.stat dir = some st)
    (hrd : fsys.readdir dir = some raw)
    (hpar : parentCheckPasses opts.root dir = true →
        ∃ ps, fsys.stat (resolveParentPath dir) = some ps) :
    (run opts ext fsys req dir).2 = true
    ∧ outcomes (run opts ext fsys req dir).1 = [] := by
  have hrun : run opts ext fsys req dir = afterRead opts ext fsys req dir st raw := by
    unfold run; rw [hst, hrd]
  rw [hrun]
  simp only [afterRead]
  cases hps : parentStep opts.root dir fsys.stat
      (sortFilesModel fsys.stat dir (listedNames opts.showDotfiles raw)).2.1 with
  | errorOut =>
    exfalso
    unfold parentStep at hps
    by_cases hc : parentCheckPasses opts.root dir = true
    · obtain ⟨ps, hpss⟩ := hpar hc
      rw [if_pos hc, hpss] at hps
      cases hps
    · rw [if_neg hc] at hps
      cases hps
  | proceed d2 =>
    have hre := renderEvents_host_none opts ext fsys req dir d2
      (sortFilesModel fsys.stat dir (listedNames opts.showDotfiles raw)).2.2
      (sortFilesModel fsys.stat dir (listedNames opts.showDotfiles raw)).1 hhost
    simp only [hre]
    simp [outcomes, isOutcome]

/-- C8 counterexample: with no host header and a failing parent stat the
antecedent of the claim holds (target stat, directory read and
classification all succeed) yet the request produces one next call and
throws nothing, so the claim as stated is false at this input. -/
theorem missing_host_error_outcome_cex :
    reqNoHostS.host = none
    ∧ fsParentFail.stat ("/srv/a") = some stDirS
    ∧ fsParentFail.readdir ("/srv/a") = some [("a.txt")]
    ∧ outcomes (run optsSwallow sampleExt fsParentFail reqNoHostS ("/srv/a")).1
        = [Ev.next]
    ∧ (run optsSwallow sampleExt fsParentFail reqNoHostS ("/srv/a")).2 = false := by
  decide

/-- Witness for the amended C8: with a healthy snapshot and no host
header the request throws and emits no outcome event. -/
theorem missing_host_render_throws_witness :
    (run optsSwallow sampleExt fsShortcut reqNoHostS ("/srv/a")).2 = true
    ∧ outcomes (run optsSwallow sampleExt fsShortcut reqNoHostS ("/srv/a")).1 = [] :=
  missing_host_render_throws optsSwallow sampleExt fsShortcut reqNoHostS ("/srv/a")
    stDirS [("link.url")] rfl (by decide) (by decide)
    (fun _ => ⟨stDirS, by decide⟩)

/-- C9: when a classified non-directory entry ends in the shortcut suffix
and its content read fails, the row write throws, the whole render
aborts, and no response is written: the request throws with no outcome
event. -/
theorem url_read_failure_aborts_render (opts : Opts) (ext : Ext) (fsys : FS)
    (req : Req) (dir : String) (st : Stat) (raw : List String) (n : String)
    (s : Stat) (ds : List Entry)
    (hst : fsys.stat dir = some st)
    (hrd : fsys.readdir dir = some raw)
    (hpp : parentStep opts.root dir fsys.stat
        (sortFilesModel fsys.stat dir (listedNames opts.showDotfiles raw)).2.1
        = ParentOutcome.proceed ds)
    (hmem : ((n, some s) : Entry)
        ∈ (sortFilesModel fsys.stat dir (listedNames opts.showDotfiles raw)).2.2)
    (hnd : s.isDir = false)
    (hurl : strEndsWith n (".url") = true)
    (hread : fsys.readFile (joinPath dir n) = none) :
    (run opts ext fsys req dir).2 = true
    ∧ outcomes (run opts ext fsys req dir).1 = [] := by
  have hrun : run opts ext fsys req dir = afterRead opts ext fsys req dir st raw := by
    unfold run; rw [hst, hrd]
  rw [hrun]
  simp only [afterRead, hpp]
  have hw : writeRowData ext opts.humanReadable opts.si fsys req.pathname req.search dir
      (n, some s) = none := by
    simp [writeRowData, hnd, hurl, hread]
  have hmm : ((n, some s) : Entry) ∈ renderOrder ds
      (sortFilesModel fsys.stat dir (listedNames opts.showDotfiles raw)).2.2
      (sortFilesModel fsys.stat dir (listedNames opts.showDotfiles raw)).1 := by
    unfold renderOrder
    exact List.mem_append.mpr (Or.inl (List.mem_append.mpr
      (Or.inr ((List.mem_insertionSort _).mpr hmem))))
  have hre : renderEvents opts ext fsys req dir ds
      (sortFilesModel fsys.stat dir (listedNames opts.showDotfiles raw)).2.2
      (sortFilesModel fsys.stat dir (listedNames opts.showDotfiles raw)).1 = none := by
    unfold renderEvents
    rw [mapMo_eq_none _ _ _ hmm hw]
  simp only [hre]
  simp [outcomes, isOutcome]

/-- Witness for C9: one unreadable shortcut entry makes the whole listing
request throw with no response, even with a host header present. -/
theorem url_read_failure_aborts_render_witness :
    (run optsRootA sampleExt fsBadShortcut reqHostS ("/srv/a")).2 = true
    ∧ outcomes (run optsRootA sampleExt fsBadShortcut reqHostS ("/srv/a")).1 = [] :=
  url_read_failure_aborts_render optsRootA sampleExt fsBadShortcut reqHostS ("/srv/a")
    stDirS [("bad.url")] ("bad.url") stFileS []
    (by decide) (by decide) (by decide) (by decide) rfl (by decide) rfl

/-- C10: a directory entry always gets the folder icon class; every
non-directory entry that renders a row carries as its row name the entry
name with the shortcut suffix stripped when it ends in that suffix (the
unchanged name otherwise), and its icon class is derived from the segment
after the last dot of that row name: the segment itself when it is an
icon-table key, the generic page key otherwise; and for a name with no
dot that segment is the entire name, so a dotless file named like a
table key gets that key as its icon. -/
theorem icon_class_rules (ext : Ext) (hr si : Bool) (fsys : FS) (pathname : String)
    (search : Option String) (parent : String) :
    (∀ name st, st.isDir = true →
        ∃ r, writeRowData ext hr si fsys pathname search parent (name, some st) = some r
          ∧ r.iconClass = ("icon-folder"))
    ∧ (∀ name stOpt r, (∀ s, stOpt = some s → s.isDir = false) →
        writeRowData ext hr si fsys pathname search parent (name, stOpt) = some r →
        r.name = (if strEndsWith name (".url")
            then strTake name (strLen name - 4) else name)
        ∧ r.iconClass = ("icon-")
            ++ (if ext.supportedIcons (lastDotSegment r.name) then lastDotSegment r.name
                else ("_page")))
    ∧ (∀ name, ('.') ∉ name.data → lastDotSegment name = name) := by
  refine ⟨?_, ?_, fun name hdot => lastDotSegment_no_dot name hdot⟩
  · intro name st hd
    simp only [writeRowData, hd, Bool.not_true, Bool.false_and, Bool.false_eq_true,
      if_false]
    exact ⟨_, rfl, rfl⟩
  · intro name stOpt r hnd hw
    cases stOpt with
    | none =>
      simp only [writeRowData, Bool.not_false, Bool.true_and] at hw
      cases hu : strEndsWith name (".url") with
      | true =>
        rw [if_pos hu] at hw
        cases hrf : fsys.readFile (joinPath parent name) with
        | none => rw [hrf] at hw; simp at hw
        | some content =>
          rw [hrf] at hw
          simp only [Option.some.injEq] at hw
          subst hw
          exact ⟨rfl, rfl⟩
      | false =>
        have hne : ¬ (strEndsWith name (".url") = true) := by simp [hu]
        rw [if_neg hne] at hw
        simp only [Option.some.injEq] at hw
        subst hw
        exact ⟨rfl, rfl⟩
    | some s =>
      simp only [writeRowData, hnd s rfl, Bool.not_false, Bool.true_and] at hw
      cases hu : strEndsWith name (".url") with
      | true =>
        rw [if_pos hu] at hw
        cases hrf : fsys.readFile (joinPath parent name) with
        | none => rw [hrf] at hw; simp at hw
        | some content =>
          rw [hrf] at hw
          simp only [Option.some.injEq] at hw
          subst hw
          exact ⟨rfl, rfl⟩
      | false =>
        have hne : ¬ (strEndsWith name (".url") = true) := by simp [hu]
        rw [if_neg hne] at hw
        simp only [Option.some.injEq] at hw
        subst hw
        exact ⟨rfl, rfl⟩

/-- Witness for C10: a directory gets the folder icon, and a file named
png, a dotless name that is an icon-table key, gets the png icon rather
than the page icon. -/
theorem icon_class_rules_witness :
    (∃ r, writeRowData sampleExt false false fsListing ("/a/") none ("/srv/a")
          (("d"), some stDirS) = some r ∧ r.iconClass = ("icon-folder"))
    ∧ (∃ r, writeRowData sampleExt false false fsListing ("/a/") none ("/srv/a")
          (("png"), some stFileS) = some r ∧ r.iconClass = ("icon-png")) := by
  have h := icon_class_rules sampleExt false false fsListing ("/a/") none ("/srv/a")
  refine ⟨h.1 ("d") stDirS rfl, ?_⟩
  cases hval : writeRowData sampleExt false false fsListing ("/a/") none ("/srv/a")
      (("png"), some stFileS) with
  | none => exact absurd hval (by decide)
  | some r =>
    refine ⟨r, rfl, ?_⟩
    obtain ⟨hname, hicon⟩ := h.2.1 ("png") (some stFileS) r
      (fun s hs => by cases hs; rfl) hval
    have hname2 : r.name = ("png") := hname.trans (by decide)
    rw [hname2] at hicon
    exact hicon.trans (by decide)

end ShowDir
